import Mathlib

/-!
Shallow embedding of the care-auditor lambda pipeline
(`lambda-classify-visits/lambda_function.py`,
`lambda-summarise-visits/lambda_function.py`, and the MVP
`lambda_function.py`), together with proofs of the specification claims.

Python string primitives (`str.strip`, `str.lower`, the `in` substring
test) are modelled on the underlying character lists.  External
collaborators (the Bedrock text-generation call, the S3 fetch, the
DynamoDB batch write, `urllib.parse.unquote_plus`) are modelled as
oracle parameters, so every theorem quantifies over their behaviour.
-/

/-- Model of Python `str.strip()`: remove leading and trailing whitespace. -/
def pyStrip (s : String) : String :=
  ⟨((s.data.dropWhile Char.isWhitespace).reverse.dropWhile Char.isWhitespace).reverse⟩

/-- Model of Python `str.lower()` (ASCII case folding, as in `Char.toLower`). -/
def pyLower (s : String) : String :=
  ⟨s.data.map Char.toLower⟩

/-- Model of the Python substring test `sub in s`. -/
def pyContains (s sub : String) : Bool :=
  decide (sub.data <:+: s.data)

/-- Numeric value of a decimal digit character. -/
def digitVal (c : Char) : Nat := c.toNat - 48

/-- Numeric value of a decimal digit string (most significant digit first). -/
def digitsVal (l : List Char) : Nat := l.foldl (fun a c => 10 * a + digitVal c) 0

/-- Outcome of one `bedrock_client.invoke_model` call: either the extracted
`outputText` of a well-formed reply, or any failure (`ClientError`, network
error, malformed response body), which the Python code catches uniformly. -/
inductive BedrockResult where
  | ok (outputText : String)
  | error
deriving DecidableEq, Repr

/-- One parsed visit record.  Each field models a key that may be absent from
the underlying JSON object (`dict.get` with a default is used everywhere). -/
structure VisitRecord where
  note : Option String
  client : Option String
  care_pro : Option String
  visit_date : Option String
deriving DecidableEq, Repr

/-- The bucket/key pair identifying one S3 object inside a notification. -/
structure S3Ref where
  bucket : String
  key : String
deriving DecidableEq, Repr

/-- Outcome of fetching and JSON-parsing one S3 object:
`parsed` models a successful `get_object` + `json.loads`,
`malformed` models a `json.JSONDecodeError`, and
`fetchFailure` models any other exception during fetch/decode. -/
inductive FetchResult where
  | parsed (records : List VisitRecord)
  | malformed
  | fetchFailure
deriving Repr

/-- Model of `os.path.splitext(p)[0]`: the path with its final extension
removed.  The extension starts at the last dot, provided that dot lies in the
basename and at least one earlier basename character is not a dot. -/
def os_path_splitext_root (p : String) : String :=
  let l := p.data
  match l.reverse.findIdx? (fun c => c == '.') with
  | none => p
  | some rdot =>
    let dotIndex := l.length - 1 - rdot
    let sepBound :=
      match l.reverse.findIdx? (fun c => c == '/') with
      | none => 0
      | some rsep => l.length - rsep
    if sepBound ≤ dotIndex ∧ ((l.drop sepBound).take (dotIndex - sepBound)).any (fun c => c != '.')
    then ⟨l.take dotIndex⟩
    else p

namespace ClassifyVisits

/-- Prompt built by `classify_visit_note` around the stripped note text. -/
def classification_prompt (note : String) : String :=
  "You are a healthcare professional reviewing care visit notes. Please classify the following visit note into one of three categories based on the level of concern:\n\nRED: Urgent/critical issues requiring immediate attention (safety concerns, medical emergencies, serious incidents, safeguarding issues)\nAMBER: Moderate concerns that need follow-up (minor health changes, care plan adjustments needed, family concerns)\nGREEN: Routine visit with no significant concerns (normal care delivery, positive outcomes, standard activities)\n\nVisit Note: \"" ++ pyStrip note ++ "\"\n\nClassification (respond with only RED, AMBER, or GREEN):"

/-- Embedding of `classify_visit_note` (identical in
`lambda-classify-visits/lambda_function.py` lines 61-107 and the MVP
`lambda_function.py` lines 25-85).  `bedrock` is the external
text-generation capability. -/
def classify_visit_note (bedrock : String → BedrockResult) (note : String) : String :=
  if note = "" ∨ pyStrip note = "" then "green"
  else
    match bedrock (classification_prompt note) with
    | .ok outputText =>
      let response_text := pyLower (pyStrip outputText)
      if pyContains response_text "red" then "red"
      else if pyContains response_text "amber" then "amber"
      else if pyContains response_text "green" then "green"
      else "amber"
    | .error => "amber"

/-- The item written to DynamoDB for one classified record
(`process_record` lines 44-53). -/
structure ClassifyItem where
  id : String
  batch_id : String
  ai_classification : String
  timestamp : String
  client : String
  care_pro : String
  visit_date : String
  note : String
deriving DecidableEq, Repr

/-- Item construction performed inside `process_record` for a record whose
note survived the emptiness check.  `now` models `datetime.now().isoformat()`. -/
def classified_item (bedrock : String → BedrockResult) (now : String)
    (batch_id : String) (idx : Nat) (visit_record : VisitRecord) : ClassifyItem :=
  { id := Nat.repr idx
    batch_id := batch_id
    ai_classification := classify_visit_note bedrock (visit_record.note.getD "")
    timestamp := now
    client := visit_record.client.getD ""
    care_pro := visit_record.care_pro.getD ""
    visit_date := visit_record.visit_date.getD ""
    note := visit_record.note.getD "" }

/-- Embedding of `process_record` (lines 29-58): classify one record, or skip
it (`none`) when its note is empty or whitespace-only.  The generic
`except` branch of the source is unreachable in this typed model because
every operation involved is total. -/
def process_record (bedrock : String → BedrockResult) (now : String)
    (args : Nat × VisitRecord × String) : Option (ClassifyItem × String) :=
  match args with
  | (idx, visit_record, batch_id) =>
    let note_text := visit_record.note.getD ""
    if pyStrip note_text = "" then none
    else
      some (classified_item bedrock now batch_id idx visit_record,
            classify_visit_note bedrock note_text)

/-- Per-category tallies (`classification_counts`). -/
structure ClassificationCounts where
  red : Nat
  amber : Nat
  green : Nat
deriving DecidableEq, Repr

/-- One step of `classification_counts[classification] += 1`.  The final
catch-all branch is unreachable because `classify_visit_note` only ever
returns one of the three keys. -/
def bump (c : ClassificationCounts) (k : String) : ClassificationCounts :=
  if k = "red" then { c with red := c.red + 1 }
  else if k = "amber" then { c with amber := c.amber + 1 }
  else if k = "green" then { c with green := c.green + 1 }
  else c

/-- Embedding of the fan-out/collect phase of `lambda_handler`
(lines 167-184): build one task per record at its original index, apply
`process_record` to every task (`executor.map` yields results in submission
order regardless of completion timing), then collect items and tallies. -/
def aggregate_records (bedrock : String → BedrockResult) (now : String)
    (records : List VisitRecord) (batch_id : String) :
    List ClassifyItem × ClassificationCounts :=
  let tasks := records.enum.map (fun p => (p.1, p.2, batch_id))
  let results := tasks.map (process_record bedrock now)
  results.foldl
    (fun acc result =>
      match result with
      | some (item, classification) => (acc.1 ++ [item], bump acc.2 classification)
      | none => acc)
    ([], ⟨0, 0, 0⟩)

end ClassifyVisits

/-- Embedding of `batch_write_to_dynamodb` (identical in both lambda variants):
`store` is the DynamoDB batch-writer collaborator, returning `true` on success
and `false` on `ClientError` or any other exception.  The second component of
the result records whether the store was invoked at all. -/
def batch_write_to_dynamodb {α : Type} (store : List α → Bool)
    (items_to_write : List α) : Nat × Bool :=
  if items_to_write.isEmpty then (0, false)
  else if store items_to_write then (items_to_write.length, true)
  else (0, true)

/-- Fixed-shape success acknowledgment returned by both lambda handlers. -/
structure HandlerResponse where
  statusCode : Nat
  message : String
  processed_objects : Nat
deriving DecidableEq, Repr

namespace ClassifyVisits

/-- One record of the triggering event for the classify lambda: either it has
no `Sns` key (logged and skipped), or it carries an SNS message whose parsed
body lists S3 object references. -/
inductive SnsRecord where
  | noSns
  | sns (s3Records : List S3Ref)
deriving Repr

/-- Observable outcome of the handler loop body for one S3 object
(the `try`/`except` block of `lambda_handler`, lines 153-209). -/
inductive ObjectOutcome where
  | parseFailed
  | fetchFailed
  | emptyBatch
  | processed (items : List ClassifyItem) (counts : ClassificationCounts)
      (success_count : Nat)
deriving Repr

/-- Processing of one S3 object inside `lambda_handler`: unquote the key,
derive the batch id, fetch and parse the object, aggregate, bulk-write.
`json.JSONDecodeError` and any other exception are caught and turn into
skip outcomes (`continue`). -/
def process_s3_object (bedrock : String → BedrockResult) (now : String)
    (store : List ClassifyItem → Bool) (s3 : S3Ref → FetchResult)
    (unquote : String → String) (ref : S3Ref) : ObjectOutcome :=
  let key := unquote ref.key
  let extracted_batch_id := os_path_splitext_root key
  match s3 ⟨ref.bucket, key⟩ with
  | .malformed => .parseFailed
  | .fetchFailure => .fetchFailed
  | .parsed records =>
    if records.isEmpty then .emptyBatch
    else
      let itemsCounts := aggregate_records bedrock now records extracted_batch_id
      let success_count := (batch_write_to_dynamodb store itemsCounts.1).1
      .processed itemsCounts.1 itemsCounts.2 success_count

/-- Embedding of `lambda_handler` (lines 134-219): iterate the event records,
process every S3 object of every SNS notification, and return the fixed-shape
acknowledgment together with the sequence of per-object outcomes. -/
def lambda_handler (bedrock : String → BedrockResult) (now : String)
    (store : List ClassifyItem → Bool) (s3 : S3Ref → FetchResult)
    (unquote : String → String) (event : List SnsRecord) :
    HandlerResponse × List ObjectOutcome :=
  let outcomes := event.foldl
    (fun acc record =>
      match record with
      | .noSns => acc
      | .sns s3Records =>
        s3Records.foldl
          (fun acc2 ref => acc2 ++ [process_s3_object bedrock now store s3 unquote ref])
          acc)
    []
  ({ statusCode := 200
     message := "Processing complete."
     processed_objects := event.length }, outcomes)

end ClassifyVisits

namespace SummariseVisits

/-- The numbered, chronological note list interpolated into the prompt. -/
def bullet_notes (notes : List String) : String :=
  String.intercalate "\n" (notes.enum.map (fun p => Nat.repr (p.1 + 1) ++ ". " ++ p.2))

/-- Prompt built by `summarise_notes` (lines 34-40). -/
def summarise_prompt (notes : List String) : String :=
  "You are a healthcare professional summarising a client's home-care visit notes. Provide a concise summary (max 150 words) that highlights changes, concerns, and any trends over time. Use clear, professional language.\n\nVisit Notes (oldest to newest):\n" ++ bullet_notes notes ++ "\n\nSummary:"

/-- Embedding of `summarise_notes` (lines 28-59): sentinel for an empty note
list, the trimmed model reply on success, and an error sentinel when the
Bedrock call fails for any reason. -/
def summarise_notes (bedrock : String → BedrockResult) (notes : List String) : String :=
  if notes.isEmpty then "No summary available."
  else
    match bedrock (summarise_prompt notes) with
    | .ok outputText => pyStrip outputText
    | .error => "Summary unavailable due to an error."

/-- The item written to DynamoDB for one summarised client
(`process_client` lines 80-87). -/
structure SummaryItem where
  batch_id : String
  client : String
  latest_visit_date : String
  visit_count : Nat
  summary : String
  timestamp : String
deriving DecidableEq, Repr

/-- Python `max` over a non-empty list (lexicographic on strings).  The
empty-list case is unreachable at the call site (`max` would raise). -/
def pyMax (l : List String) : String :=
  match l with
  | [] => ""
  | x :: xs => xs.foldl max x

/-- Comparison used by `sorted(client_records, key=lambda r: r.get("visit_date", ""))`. -/
def byVisitDate (a b : VisitRecord) : Bool :=
  decide (a.visit_date.getD "" ≤ b.visit_date.getD "")

/-- Sorting step of `process_client` (lines 68-71): Python `sorted` with a
key is a stable merge sort on the key comparison. -/
def sorted_records (client_records : List VisitRecord) : List VisitRecord :=
  client_records.mergeSort byVisitDate

/-- The list comprehension of `process_client` (line 72): stripped notes of
the sorted records, keeping only the non-empty ones. -/
def notes_of (client_records : List VisitRecord) : List String :=
  (sorted_records client_records).filterMap
    (fun r => let s := pyStrip (r.note.getD ""); if s = "" then none else some s)

/-- Item construction of `process_client` (lines 79-87) for a client with at
least one usable note. -/
def client_item (bedrock : String → BedrockResult) (now : String)
    (batch_id : String) (client_name : String)
    (client_records : List VisitRecord) : SummaryItem :=
  { batch_id := batch_id
    client := client_name
    latest_visit_date :=
      pyMax ((sorted_records client_records).map (fun r => r.visit_date.getD ""))
    visit_count := (sorted_records client_records).length
    summary := summarise_notes bedrock (notes_of client_records)
    timestamp := now }

/-- Embedding of `process_client` (lines 63-92): sort one client's records
chronologically, keep the stripped non-empty notes, skip the client (`none`)
when no note remains, otherwise summarise and build the output item.  The
generic `except` branch of the source is unreachable in this typed model. -/
def process_client (bedrock : String → BedrockResult) (now : String)
    (args : Nat × String × List VisitRecord × String) : Option SummaryItem :=
  match args with
  | (_idx, client_name, client_records, batch_id) =>
    if (notes_of client_records).isEmpty then none
    else some (client_item bedrock now batch_id client_name client_records)

/-- One step of `client_map.setdefault(client, []).append(rec)` on an
insertion-ordered association list (Python dicts preserve insertion order). -/
def upsert (m : List (String × List VisitRecord)) (k : String) (r : VisitRecord) :
    List (String × List VisitRecord) :=
  match m with
  | [] => [(k, [r])]
  | (k', rs) :: rest =>
    if k' = k then (k', rs ++ [r]) :: rest else (k', rs) :: upsert rest k r

/-- Grouping loop of `lambda_handler` (lines 136-139): group records by
`rec.get("client", "Unknown")`. -/
def group_by_client (records : List VisitRecord) : List (String × List VisitRecord) :=
  records.foldl (fun m rec => upsert m (rec.client.getD "Unknown") rec) []

/-- Fan-out/collect phase of the summarise `lambda_handler` (lines 141-155):
one task per client group in first-seen order, `process_client` applied to
each (`executor.map` yields results in submission order), `None` results
dropped. -/
def summarise_clients (bedrock : String → BedrockResult) (now : String)
    (records : List VisitRecord) (batch_id : String) : List SummaryItem :=
  let client_map := group_by_client records
  let tasks := client_map.enum.map (fun p => (p.1, p.2.1, p.2.2, batch_id))
  (tasks.map (process_client bedrock now)).filterMap id

/-- Observable outcome of the handler loop body for one S3 object
(`lambda_handler` lines 126-166). -/
inductive ObjectOutcome where
  | parseFailed
  | fetchFailed
  | processed (items : List SummaryItem) (success_count : Nat)
deriving Repr

/-- Processing of one S3 object inside the summarise `lambda_handler`. -/
def process_s3_object (bedrock : String → BedrockResult) (now : String)
    (store : List SummaryItem → Bool) (s3 : S3Ref → FetchResult)
    (unquote : String → String) (ref : S3Ref) : ObjectOutcome :=
  let key := unquote ref.key
  let batch_id := os_path_splitext_root key
  match s3 ⟨ref.bucket, key⟩ with
  | .malformed => .parseFailed
  | .fetchFailure => .fetchFailed
  | .parsed records =>
    let items := summarise_clients bedrock now records batch_id
    let success_count := (batch_write_to_dynamodb store items).1
    .processed items success_count

/-- Embedding of the summarise `lambda_handler` (lines 119-174): the event
records directly carry S3 object references (no SNS wrapper in this variant). -/
def lambda_handler (bedrock : String → BedrockResult) (now : String)
    (store : List SummaryItem → Bool) (s3 : S3Ref → FetchResult)
    (unquote : String → String) (event : List S3Ref) :
    HandlerResponse × List ObjectOutcome :=
  let outcomes := event.foldl
    (fun acc ref => acc ++ [process_s3_object bedrock now store s3 unquote ref])
    []
  ({ statusCode := 200
     message := "Summarisation complete."
     processed_objects := event.length }, outcomes)

end SummariseVisits

/-- Whether a record's note survives the emptiness check used by both pipelines. -/
def hasNonEmptyNote (r : VisitRecord) : Bool :=
  pyStrip (r.note.getD "") != ""

/-- Concrete fixture: a record with a usable note dated 2024-01-01. -/
def visitJan1 : VisitRecord :=
  { note := some "Client ate well."
    client := some "A"
    care_pro := some "P"
    visit_date := some "2024-01-01" }

/-- Concrete fixture: a record with a whitespace-only note dated 2024-01-02. -/
def visitJan2Blank : VisitRecord :=
  { note := some "   "
    client := some "A"
    care_pro := some "P"
    visit_date := some "2024-01-02" }

/-- Concrete fixture: a record whose client field is absent. -/
def recAbsentClient : VisitRecord :=
  { note := some "Quiet day."
    client := none
    care_pro := none
    visit_date := some "2024-02-03" }

/-- Concrete fixture: a record whose client field is present but empty. -/
def recEmptyClient : VisitRecord :=
  { note := some "Visited garden."
    client := some ""
    care_pro := none
    visit_date := some "2024-02-02" }

/-- Concrete fixture: a record whose client field is present and equal to the
literal string Unknown. -/
def recLiteralUnknownClient : VisitRecord :=
  { note := some "Met family."
    client := some "Unknown"
    care_pro := none
    visit_date := some "2024-02-01" }

/-! ### Supporting lemmas -/
theorem pyStrip_empty : pyStrip "" = "" := rfl

/-- Packing a valid codepoint and unpacking it is the identity. -/
theorem charToNat_ofNat_valid {n : Nat} (h : n.isValidChar) :
    (Char.ofNat n).toNat = n := by
  rw [Char.ofNat, dif_pos h]
  rfl

/-- ASCII case folding does not change whether a character is whitespace. -/
theorem isWhitespace_toLower (c : Char) :
    (Char.toLower c).isWhitespace = c.isWhitespace := by
  show (if c.toNat ≥ 65 ∧ c.toNat ≤ 90 then Char.ofNat (c.toNat + 32) else c).isWhitespace
      = c.isWhitespace
  split
  · next h =>
    have hval : (Char.ofNat (c.toNat + 32)).toNat = c.toNat + 32 := by
      apply charToNat_ofNat_valid
      left
      omega
    have h1 : (Char.ofNat (c.toNat + 32)).isWhitespace = false := by
      simp only [Char.isWhitespace]
      have key : ∀ d : Char, 97 ≤ d.toNat →
          (d = ' ' || d = '\t' || d = '\r' || d = '\n') = false := by
        intro d hd
        have h32 : d ≠ ' ' := by intro he; subst he; exact absurd hd (by decide)
        have h9 : d ≠ '\t' := by intro he; subst he; exact absurd hd (by decide)
        have h13 : d ≠ '\r' := by intro he; subst he; exact absurd hd (by decide)
        have h10 : d ≠ '\n' := by intro he; subst he; exact absurd hd (by decide)
        simp [h32, h9, h13, h10]
      apply key
      omega
    have h2 : c.isWhitespace = false := by
      simp only [Char.isWhitespace]
      have h32 : c ≠ ' ' := by intro he; subst he; exact absurd h (by decide)
      have h9 : c ≠ '\t' := by intro he; subst he; exact absurd h (by decide)
      have h13 : c ≠ '\r' := by intro he; subst he; exact absurd h (by decide)
      have h10 : c ≠ '\n' := by intro he; subst he; exact absurd h (by decide)
      simp [h32, h9, h13, h10]
    rw [h1, h2]
  · rfl

/-- Lower-casing commutes with stripping. -/
theorem pyLower_pyStrip (s : String) : pyLower (pyStrip s) = pyStrip (pyLower s) := by
  show (⟨(((s.data.dropWhile Char.isWhitespace).reverse.dropWhile
      Char.isWhitespace).reverse).map Char.toLower⟩ : String)
    = ⟨(((s.data.map Char.toLower).dropWhile Char.isWhitespace).reverse.dropWhile
        Char.isWhitespace).reverse⟩
  have hmapdrop : ∀ l : List Char,
      (l.map Char.toLower).dropWhile Char.isWhitespace
        = (l.dropWhile Char.isWhitespace).map Char.toLower := by
    intro l
    rw [List.dropWhile_map]
    have hfun : Char.isWhitespace ∘ Char.toLower = Char.isWhitespace := by
      funext c
      exact isWhitespace_toLower c
    rw [hfun]
  rw [hmapdrop, ← List.map_reverse, hmapdrop, ← List.map_reverse]

/-- An infix made of non-`p` elements survives `dropWhile p`. -/
theorem isInfix_dropWhile_iff {p : Char → Bool} {pat l : List Char}
    (hne : pat ≠ []) (hpat : ∀ c ∈ pat, p c = false) :
    pat <:+: l.dropWhile p ↔ pat <:+: l := by
  constructor
  · intro h
    exact h.trans (List.dropWhile_suffix p).isInfix
  · intro h
    induction l with
    | nil => simpa using h
    | cons x xs ih =>
      by_cases hx : p x
      · rw [List.dropWhile_cons_of_pos hx]
        rcases List.infix_cons_iff.mp h with hpre | hinf
        · exfalso
          obtain ⟨c, cs, rfl⟩ := List.exists_cons_of_ne_nil hne
          have : c = x := by
            have := hpre
            rw [List.cons_prefix_cons] at this
            exact this.1
          subst this
          have := hpat c (List.mem_cons_self c cs)
          rw [this] at hx
          exact Bool.false_ne_true hx
        · exact ih hinf
      · rw [List.dropWhile_cons_of_neg hx]
        exact h

/-- An infix of a reversed list is a reversed infix. -/
theorem isInfix_reverse_iff {α : Type} {l₁ l₂ : List α} :
    l₁ <:+: l₂.reverse ↔ l₁.reverse <:+: l₂ := by
  constructor
  · intro h
    have h2 := List.reverse_infix.mpr h
    simpa using h2
  · intro h
    have h2 := List.reverse_infix.mpr h
    simpa using h2

/-- Stripping the searched string does not affect a whitespace-free substring test. -/
theorem pyContains_pyStrip (s pat : String) (hne : pat.data ≠ [])
    (hpat : ∀ c ∈ pat.data, c.isWhitespace = false) :
    pyContains (pyStrip s) pat = pyContains s pat := by
  unfold pyContains pyStrip
  apply decide_eq_decide.mpr
  show (pat.data <:+: ((s.data.dropWhile Char.isWhitespace).reverse.dropWhile
      Char.isWhitespace).reverse) ↔ pat.data <:+: s.data
  have hrevpat : pat.data.reverse ≠ [] := by
    simpa using hne
  have hrevmem : ∀ c ∈ pat.data.reverse, c.isWhitespace = false := by
    intro c hc
    exact hpat c (List.mem_reverse.mp hc)
  calc pat.data <:+: ((s.data.dropWhile Char.isWhitespace).reverse.dropWhile
          Char.isWhitespace).reverse
      ↔ pat.data.reverse <:+: (s.data.dropWhile Char.isWhitespace).reverse.dropWhile
          Char.isWhitespace := isInfix_reverse_iff
    _ ↔ pat.data.reverse <:+: (s.data.dropWhile Char.isWhitespace).reverse :=
        isInfix_dropWhile_iff hrevpat hrevmem
    _ ↔ pat.data <:+: s.data.dropWhile Char.isWhitespace := by
        rw [← List.reverse_infix]
        simp
    _ ↔ pat.data <:+: s.data := isInfix_dropWhile_iff hne hpat

theorem digitsVal_append_singleton (l : List Char) (c : Char) (a : Nat) :
    (l ++ [c]).foldl (fun a c => 10 * a + digitVal c) a
      = 10 * l.foldl (fun a c => 10 * a + digitVal c) a + digitVal c := by
  rw [List.foldl_append]
  rfl

/-- With enough fuel, `Nat.toDigitsCore` prepends the digits of `n` to the accumulator. -/
theorem toDigitsCore_eq_toDigits_append :
    ∀ n : Nat, ∀ fuel ds, n < fuel →
      Nat.toDigitsCore 10 fuel n ds = Nat.toDigits 10 n ++ ds := by
  intro n
  induction n using Nat.strong_induction_on with
  | _ n ih =>
    intro fuel ds hfuel
    match fuel, hfuel with
    | fuel + 1, hfuel =>
      by_cases hq : n / 10 = 0
      · show (if n / 10 = 0 then _ :: ds else _) = _
        rw [if_pos hq]
        show _ = Nat.toDigitsCore 10 (n + 1) n []  ++ ds
        show _ = (if n / 10 = 0 then _ :: ([] : List Char) else _) ++ ds
        rw [if_pos hq]
        rfl
      · have hn10 : 0 < n / 10 := Nat.pos_of_ne_zero hq
        have hlt : n / 10 < n := Nat.div_lt_self (by omega) (by omega)
        show (if n / 10 = 0 then _ :: ds else
            Nat.toDigitsCore 10 fuel (n / 10) (Nat.digitChar (n % 10) :: ds)) = _
        rw [if_neg hq]
        have hfuel2 : n / 10 < fuel := by omega
        rw [ih (n / 10) hlt fuel _ hfuel2]
        show _ = Nat.toDigitsCore 10 (n + 1) n [] ++ ds
        show _ = (if n / 10 = 0 then _ :: ([] : List Char) else
            Nat.toDigitsCore 10 n (n / 10) [Nat.digitChar (n % 10)]) ++ ds
        rw [if_neg hq, ih (n / 10) hlt n _ hlt]
        simp

theorem digitVal_digitChar {m : Nat} (h : m < 10) :
    digitVal (Nat.digitChar m) = m := by
  interval_cases m <;> rfl

/-- The decimal digits of `n` evaluate back to `n`. -/
theorem digitsVal_toDigits (n : Nat) : digitsVal (Nat.toDigits 10 n) = n := by
  induction n using Nat.strong_induction_on with
  | _ n ih =>
    by_cases hq : n / 10 = 0
    · have hn : n < 10 := by omega
      show digitsVal (Nat.toDigitsCore 10 (n + 1) n []) = n
      have : Nat.toDigitsCore 10 (n + 1) n [] = [Nat.digitChar (n % 10)] := by
        show (if n / 10 = 0 then _ :: ([] : List Char) else _) = _
        rw [if_pos hq]
      rw [this]
      show 10 * 0 + digitVal (Nat.digitChar (n % 10)) = n
      rw [digitVal_digitChar (Nat.mod_lt n (by omega))]
      omega
    · have hlt : n / 10 < n := Nat.div_lt_self (by omega) (by omega)
      show digitsVal (Nat.toDigitsCore 10 (n + 1) n []) = n
      have hstep : Nat.toDigitsCore 10 (n + 1) n []
          = Nat.toDigits 10 (n / 10) ++ [Nat.digitChar (n % 10)] := by
        show (if n / 10 = 0 then _ :: ([] : List Char) else
            Nat.toDigitsCore 10 n (n / 10) [Nat.digitChar (n % 10)]) = _
        rw [if_neg hq]
        exact toDigitsCore_eq_toDigits_append (n / 10) n _ hlt
      rw [hstep]
      show (Nat.toDigits 10 (n / 10) ++ [Nat.digitChar (n % 10)]).foldl
          (fun a c => 10 * a + digitVal c) 0 = n
      rw [digitsVal_append_singleton]
      have := ih (n / 10) hlt
      show 10 * digitsVal (Nat.toDigits 10 (n / 10)) + digitVal (Nat.digitChar (n % 10)) = n
      rw [this, digitVal_digitChar (Nat.mod_lt n (by omega))]
      omega

/-- Python `str` of a natural index is injective: distinct indices give distinct strings. -/
theorem natRepr_injective : Function.Injective Nat.repr := by
  intro a b hab
  have ha : digitsVal (Nat.repr a).data = a := by
    show digitsVal (Nat.toDigits 10 a).asString.data = a
    rw [List.asString]
    exact digitsVal_toDigits a
  have hb : digitsVal (Nat.repr b).data = b := by
    show digitsVal (Nat.toDigits 10 b).asString.data = b
    rw [List.asString]
    exact digitsVal_toDigits b
  rw [← ha, ← hb, hab]

/-- Stripping before lower-casing does not affect a whitespace-free substring test. -/
theorem pyContains_strip_lower (t pat : String) (hne : pat.data ≠ [])
    (hws : ∀ c ∈ pat.data, c.isWhitespace = false) :
    pyContains (pyLower (pyStrip t)) pat = pyContains (pyLower t) pat := by
  rw [pyLower_pyStrip]
  exact pyContains_pyStrip (pyLower t) pat hne hws

/-! ### Claim theorems -/

/-- C1: `classify_visit_note` is a function of the note and the capability
behaviour.  A blank note yields `"green"` independently of the capability
(so without needing to invoke it); otherwise, a successful reply is mapped
by case-insensitive substring search in the priority order red, amber,
green, defaulting to `"amber"`; a failed call yields `"amber"`, never
`"green"`. -/
theorem C1_classifier_contract (bedrock : String → BedrockResult) (note : String) :
    (pyStrip note = "" →
      ClassifyVisits.classify_visit_note bedrock note = "green"
      ∧ ∀ other : String → BedrockResult,
          ClassifyVisits.classify_visit_note other note = "green")
    ∧ (pyStrip note ≠ "" →
      (∀ outputText, bedrock (ClassifyVisits.classification_prompt note)
          = .ok outputText →
        ClassifyVisits.classify_visit_note bedrock note =
          (if pyContains (pyLower outputText) "red" then "red"
           else if pyContains (pyLower outputText) "amber" then "amber"
           else if pyContains (pyLower outputText) "green" then "green"
           else "amber"))
      ∧ (bedrock (ClassifyVisits.classification_prompt note) = .error →
          ClassifyVisits.classify_visit_note bedrock note = "amber"
          ∧ ClassifyVisits.classify_visit_note bedrock note ≠ "green")) := by
  constructor
  · intro hblank
    have hcond : note = "" ∨ pyStrip note = "" := Or.inr hblank
    constructor
    · unfold ClassifyVisits.classify_visit_note
      rw [if_pos hcond]
    · intro other
      unfold ClassifyVisits.classify_visit_note
      rw [if_pos hcond]
  · intro hnb
    have hcond : ¬(note = "" ∨ pyStrip note = "") := by
      rintro (h | h)
      · rw [h] at hnb
        exact hnb pyStrip_empty
      · exact hnb h
    constructor
    · intro outputText hbed
      have hred : pyContains (pyLower (pyStrip outputText)) "red"
          = pyContains (pyLower outputText) "red" :=
        pyContains_strip_lower _ _ (by decide) (by decide)
      have hamb : pyContains (pyLower (pyStrip outputText)) "amber"
          = pyContains (pyLower outputText) "amber" :=
        pyContains_strip_lower _ _ (by decide) (by decide)
      have hgrn : pyContains (pyLower (pyStrip outputText)) "green"
          = pyContains (pyLower outputText) "green" :=
        pyContains_strip_lower _ _ (by decide) (by decide)
      unfold ClassifyVisits.classify_visit_note
      rw [if_neg hcond, hbed]
      show (if pyContains (pyLower (pyStrip outputText)) "red" then "red"
        else if pyContains (pyLower (pyStrip outputText)) "amber" then "amber"
        else if pyContains (pyLower (pyStrip outputText)) "green" then "green"
        else "amber") = _
      rw [hred, hamb, hgrn]
    · intro hbed
      constructor
      · unfold ClassifyVisits.classify_visit_note
        rw [if_neg hcond, hbed]
      · unfold ClassifyVisits.classify_visit_note
        rw [if_neg hcond, hbed]
        decide

/-- C1 witness: a concrete non-blank note with a concrete capability reply. -/
theorem C1_classifier_contract_witness :
    pyStrip "Patient fell." ≠ ""
    ∧ ClassifyVisits.classify_visit_note (fun _ => .ok " RED\n") "Patient fell." = "red" := by
  refine ⟨by decide, ?_⟩
  have h := (C1_classifier_contract (fun _ => .ok " RED\n") "Patient fell.").2
    (by decide) |>.1 " RED\n" rfl
  rw [h]
  decide

/-- C4: the bulk persister returns 0 without any store call on an empty list,
returns 0 (never a partial count) when the store's batch write errors on a
non-empty list, and returns the full input length on success. -/
theorem C4_bulk_persister_contract {α : Type} (store : List α → Bool)
    (items : List α) :
    (items = [] → batch_write_to_dynamodb store items = (0, false))
    ∧ (items ≠ [] → store items = false →
        batch_write_to_dynamodb store items = (0, true))
    ∧ (items ≠ [] → store items = true →
        batch_write_to_dynamodb store items = (items.length, true)) := by
  refine ⟨?_, ?_, ?_⟩
  · intro h
    subst h
    rfl
  · intro hne hstore
    unfold batch_write_to_dynamodb
    rw [if_neg (by simpa using hne), hstore]
    rfl
  · intro hne hstore
    unfold batch_write_to_dynamodb
    rw [if_neg (by simpa using hne), hstore]
    rfl

/-- C4 witness: concrete empty, erroring and succeeding store calls. -/
theorem C4_bulk_persister_contract_witness :
    batch_write_to_dynamodb (fun _ : List Nat => false) [] = (0, false)
    ∧ (([7] : List Nat) ≠ []
        ∧ batch_write_to_dynamodb (fun _ : List Nat => false) [7] = (0, true))
    ∧ (([7, 8] : List Nat) ≠ []
        ∧ batch_write_to_dynamodb (fun _ : List Nat => true) [7, 8] = (2, true)) := by
  refine ⟨?_, ⟨by decide, ?_⟩, ⟨by decide, ?_⟩⟩
  · exact (C4_bulk_persister_contract (fun _ : List Nat => false) []).1 rfl
  · exact (C4_bulk_persister_contract (fun _ : List Nat => false) [7]).2.1
      (by decide) rfl
  · exact (C4_bulk_persister_contract (fun _ : List Nat => true) [7, 8]).2.2
      (by decide) rfl

/-- C5: the summariser returns the fixed sentinel for an empty note list
independently of the capability (so without invoking it), the error sentinel
when the capability call fails, and otherwise the trimmed reply verbatim.
It is a total function, so it never raises to its caller. -/
theorem C5_summariser_contract (bedrock : String → BedrockResult)
    (notes : List String) :
    (notes = [] →
      SummariseVisits.summarise_notes bedrock notes = "No summary available."
      ∧ ∀ other : String → BedrockResult,
          SummariseVisits.summarise_notes other notes = "No summary available.")
    ∧ (notes ≠ [] →
      (bedrock (SummariseVisits.summarise_prompt notes) = .error →
        SummariseVisits.summarise_notes bedrock notes
          = "Summary unavailable due to an error.")
      ∧ (∀ outputText,
          bedrock (SummariseVisits.summarise_prompt notes) = .ok outputText →
          SummariseVisits.summarise_notes bedrock notes = pyStrip outputText)) := by
  constructor
  · intro h
    subst h
    exact ⟨rfl, fun _ => rfl⟩
  · intro hne
    have hcond : ¬notes.isEmpty = true := by
      simpa using hne
    constructor
    · intro hbed
      unfold SummariseVisits.summarise_notes
      rw [if_neg hcond, hbed]
    · intro outputText hbed
      unfold SummariseVisits.summarise_notes
      rw [if_neg hcond, hbed]

/-- C5 witness: concrete empty-list, error and success cases. -/
theorem C5_summariser_contract_witness :
    SummariseVisits.summarise_notes (fun _ => .ok "ignored") []
      = "No summary available."
    ∧ ((["fine day"] : List String) ≠ []
        ∧ SummariseVisits.summarise_notes (fun _ => .error) ["fine day"]
            = "Summary unavailable due to an error.")
    ∧ ((["fine day"] : List String) ≠ []
        ∧ SummariseVisits.summarise_notes (fun _ => .ok " All well. ") ["fine day"]
            = pyStrip " All well. ") := by
  refine ⟨?_, ⟨by decide, ?_⟩, ⟨by decide, ?_⟩⟩
  · exact ((C5_summariser_contract (fun _ => .ok "ignored") []).1 rfl).1
  · exact (C5_summariser_contract (fun _ => .error) ["fine day"]).2
      (by decide) |>.1 rfl
  · exact (C5_summariser_contract (fun _ => .ok " All well. ") ["fine day"]).2
      (by decide) |>.2 " All well. " rfl

theorem hasNonEmptyNote_iff (r : VisitRecord) :
    hasNonEmptyNote r = true ↔ pyStrip (r.note.getD "") ≠ "" := by
  simp [hasNonEmptyNote]

theorem process_record_of_keep (bedrock : String → BedrockResult) (now : String)
    (batch_id : String) (idx : Nat) (r : VisitRecord)
    (h : hasNonEmptyNote r = true) :
    ClassifyVisits.process_record bedrock now (idx, r, batch_id)
      = some (ClassifyVisits.classified_item bedrock now batch_id idx r,
              ClassifyVisits.classify_visit_note bedrock (r.note.getD "")) := by
  show (if pyStrip (r.note.getD "") = "" then none
    else some (ClassifyVisits.classified_item bedrock now batch_id idx r,
      ClassifyVisits.classify_visit_note bedrock (r.note.getD ""))) = _
  rw [if_neg ((hasNonEmptyNote_iff r).mp h)]

theorem process_record_of_skip (bedrock : String → BedrockResult) (now : String)
    (batch_id : String) (idx : Nat) (r : VisitRecord)
    (h : ¬hasNonEmptyNote r = true) :
    ClassifyVisits.process_record bedrock now (idx, r, batch_id) = none := by
  show (if pyStrip (r.note.getD "") = "" then none
    else some (ClassifyVisits.classified_item bedrock now batch_id idx r,
      ClassifyVisits.classify_visit_note bedrock (r.note.getD ""))) = none
  rw [if_pos (by simpa [hasNonEmptyNote_iff] using h)]

theorem aggregate_fold_fst (bedrock : String → BedrockResult) (now : String)
    (batch_id : String) :
    ∀ (ps : List (Nat × VisitRecord))
      (init : List ClassifyVisits.ClassifyItem × ClassifyVisits.ClassificationCounts),
      (((ps.map (fun p => (p.1, p.2, batch_id))).map
          (ClassifyVisits.process_record bedrock now)).foldl
        (fun acc result =>
          match result with
          | some (item, classification) =>
              (acc.1 ++ [item], ClassifyVisits.bump acc.2 classification)
          | none => acc)
        init).1
      = init.1 ++ (ps.filter (fun p => hasNonEmptyNote p.2)).map
          (fun p => ClassifyVisits.classified_item bedrock now batch_id p.1 p.2) := by
  intro ps
  induction ps with
  | nil =>
    intro init
    simp
  | cons p rest ih =>
    intro init
    rw [List.map_cons, List.map_cons, List.foldl_cons]
    by_cases hk : hasNonEmptyNote p.2 = true
    · rw [process_record_of_keep bedrock now batch_id p.1 p.2 hk]
      rw [ih, @List.filter_cons_of_pos _ (fun q : Nat × VisitRecord => hasNonEmptyNote q.2)
        p rest hk, List.map_cons]
      simp
    · rw [process_record_of_skip bedrock now batch_id p.1 p.2 hk]
      rw [ih, @List.filter_cons_of_neg _ (fun q : Nat × VisitRecord => hasNonEmptyNote q.2)
        p rest hk]

/-- The list of items produced by the classification fan-out is exactly the
in-order image of the records whose note is non-blank. -/
theorem aggregate_records_fst (bedrock : String → BedrockResult) (now : String)
    (records : List VisitRecord) (batch_id : String) :
    (ClassifyVisits.aggregate_records bedrock now records batch_id).1
      = (records.enum.filter (fun p => hasNonEmptyNote p.2)).map
          (fun p => ClassifyVisits.classified_item bedrock now batch_id p.1 p.2) := by
  have h := aggregate_fold_fst bedrock now batch_id records.enum
    ([], ⟨0, 0, 0⟩)
  simpa [ClassifyVisits.aggregate_records] using h

/-- Indices in `enumFrom` are strictly increasing. -/
theorem pairwise_fst_lt_enumFrom {α : Type} :
    ∀ (n : Nat) (l : List α), (l.enumFrom n).Pairwise (fun a b => a.1 < b.1) := by
  intro n l
  induction l generalizing n with
  | nil => simp
  | cons x xs ih =>
    rw [List.enumFrom_cons]
    refine List.Pairwise.cons ?_ (ih (n + 1))
    intro b hb
    have hle : n + 1 ≤ b.1 := by
      have := (List.mk_mem_enumFrom_iff_le_and_getElem?_sub.mp (by
        simpa using hb)).1
      simpa using this
    simpa using hle

theorem process_client_eq (bedrock : String → BedrockResult) (now : String)
    (idx : Nat) (client_name : String) (client_records : List VisitRecord)
    (batch_id : String) :
    SummariseVisits.process_client bedrock now (idx, client_name, client_records, batch_id)
      = if (SummariseVisits.notes_of client_records).isEmpty then none
        else some (SummariseVisits.client_item bedrock now batch_id client_name
          client_records) := rfl

theorem notes_of_eq_nil_iff (client_records : List VisitRecord) :
    SummariseVisits.notes_of client_records = []
      ↔ ∀ r ∈ client_records, hasNonEmptyNote r = false := by
  unfold SummariseVisits.notes_of
  rw [List.filterMap_eq_nil_iff]
  constructor
  · intro h r hr
    have hmem : r ∈ SummariseVisits.sorted_records client_records := by
      unfold SummariseVisits.sorted_records
      rw [List.mem_mergeSort]
      exact hr
    have := h r hmem
    by_cases hs : pyStrip (r.note.getD "") = ""
    · simp [hasNonEmptyNote, hs]
    · rw [if_neg hs] at this
      exact absurd this (by simp)
  · intro h r hr
    have hr2 : r ∈ client_records := by
      have := hr
      unfold SummariseVisits.sorted_records at this
      rw [List.mem_mergeSort] at this
      exact this
    have := h r hr2
    have hs : pyStrip (r.note.getD "") = "" := by
      simpa [hasNonEmptyNote] using this
    rw [if_pos hs]

theorem summarise_fold (bedrock : String → BedrockResult) (now : String)
    (batch_id : String) :
    ∀ ps : List (Nat × String × List VisitRecord),
      ((ps.map (fun p => (p.1, p.2.1, p.2.2, batch_id))).map
          (SummariseVisits.process_client bedrock now)).filterMap id
        = (ps.filter (fun p => !(SummariseVisits.notes_of p.2.2).isEmpty)).map
            (fun p => SummariseVisits.client_item bedrock now batch_id p.2.1 p.2.2) := by
  intro ps
  induction ps with
  | nil => rfl
  | cons p rest ih =>
    rw [List.map_cons, List.map_cons, List.filterMap_cons]
    by_cases hk : (SummariseVisits.notes_of p.2.2).isEmpty = true
    · have hnone : SummariseVisits.process_client bedrock now
          (p.1, p.2.1, p.2.2, batch_id) = none := by
        rw [process_client_eq, if_pos hk]
      rw [hnone]
      show _ = ((p :: rest).filter
        (fun p => !(SummariseVisits.notes_of p.2.2).isEmpty)).map _
      rw [@List.filter_cons_of_neg _
        (fun p : Nat × String × List VisitRecord => !(SummariseVisits.notes_of p.2.2).isEmpty)
        p rest (by simpa using hk)]
      exact ih
    · have hsome : SummariseVisits.process_client bedrock now
          (p.1, p.2.1, p.2.2, batch_id)
          = some (SummariseVisits.client_item bedrock now batch_id p.2.1 p.2.2) := by
        rw [process_client_eq, if_neg hk]
      rw [hsome]
      show _ = ((p :: rest).filter
        (fun p => !(SummariseVisits.notes_of p.2.2).isEmpty)).map _
      rw [@List.filter_cons_of_pos _
        (fun p : Nat × String × List VisitRecord => !(SummariseVisits.notes_of p.2.2).isEmpty)
        p rest (by simpa using hk), List.map_cons]
      rw [ih]
      rfl

theorem enum_filter_map_snd {α β : Type} (l : List α) (q : α → Bool) (g : α → β) :
    ((l.enum.filter (fun p => q p.2)).map (fun p => g p.2))
      = (l.filter q).map g := by
  have h1 : l.enum.filter (fun p => q p.2)
      = l.enum.filter ((fun a => q a) ∘ Prod.snd) := rfl
  have h2 : (l.filter q).map g = ((l.enum.map Prod.snd).filter q).map g := by
    rw [show l.enum.map Prod.snd = l from List.enumFrom_map_snd 0 l]
  rw [h2, List.filter_map, List.map_map]
  rfl

/-- The summarisation fan-out produces exactly one item per client group with
at least one usable note, in first-seen group order. -/
theorem summarise_clients_eq (bedrock : String → BedrockResult) (now : String)
    (records : List VisitRecord) (batch_id : String) :
    SummariseVisits.summarise_clients bedrock now records batch_id
      = ((SummariseVisits.group_by_client records).filter
          (fun g => !(SummariseVisits.notes_of g.2).isEmpty)).map
          (fun g => SummariseVisits.client_item bedrock now batch_id g.1 g.2) := by
  unfold SummariseVisits.summarise_clients
  rw [summarise_fold bedrock now batch_id (SummariseVisits.group_by_client records).enum]
  exact enum_filter_map_snd (SummariseVisits.group_by_client records)
    (fun g => !(SummariseVisits.notes_of g.2).isEmpty)
    (fun g => SummariseVisits.client_item bedrock now batch_id g.1 g.2)

theorem forall_enum_keep_iff (records : List VisitRecord) :
    (∀ p ∈ records.enum, hasNonEmptyNote p.2 = true)
      ↔ ∀ r ∈ records, pyStrip (r.note.getD "") ≠ "" := by
  constructor
  · intro h r hr
    obtain ⟨i, hi, hget⟩ := List.mem_iff_getElem.mp hr
    have hmem : (i, r) ∈ records.enum := by
      rw [List.mk_mem_enum_iff_getElem?]
      rw [List.getElem?_eq_getElem hi, hget]
    exact (hasNonEmptyNote_iff r).mp (h (i, r) hmem)
  · intro h p hp
    have hget : records[p.1]? = some p.2 := by
      have := List.mk_mem_enum_iff_getElem?.mp (by
        have : p = (p.1, p.2) := rfl
        rw [this] at hp
        exact hp)
      exact this
    have hmem : p.2 ∈ records := List.getElem?_mem hget
    exact (hasNonEmptyNote_iff p.2).mpr (h p.2 hmem)

/-- C2: in classification mode the number of output items never exceeds the
number of records, with equality exactly when no record has a blank note; in
summarisation mode it never exceeds the number of client groups (the units of
work of that mode), with equality exactly when every client group has at
least one record with a non-blank note. -/
theorem C2_output_count (bedrock : String → BedrockResult) (now : String)
    (records : List VisitRecord) (batch_id : String) :
    ((ClassifyVisits.aggregate_records bedrock now records batch_id).1.length
        ≤ records.length
      ∧ ((ClassifyVisits.aggregate_records bedrock now records batch_id).1.length
            = records.length
          ↔ ∀ r ∈ records, pyStrip (r.note.getD "") ≠ ""))
    ∧ ((SummariseVisits.summarise_clients bedrock now records batch_id).length
        ≤ (SummariseVisits.group_by_client records).length
      ∧ ((SummariseVisits.summarise_clients bedrock now records batch_id).length
            = (SummariseVisits.group_by_client records).length
          ↔ ∀ g ∈ SummariseVisits.group_by_client records,
              ∃ r ∈ g.2, pyStrip (r.note.getD "") ≠ "")) := by
  constructor
  · rw [aggregate_records_fst bedrock now records batch_id, List.length_map]
    constructor
    · calc (records.enum.filter (fun p => hasNonEmptyNote p.2)).length
          ≤ records.enum.length := List.length_filter_le _ _
        _ = records.length := List.enum_length
    · rw [show records.length = records.enum.length from List.enum_length.symm]
      rw [List.filter_length_eq_length]
      exact forall_enum_keep_iff records
  · rw [summarise_clients_eq bedrock now records batch_id, List.length_map]
    constructor
    · exact List.length_filter_le _ _
    · rw [List.filter_length_eq_length]
      constructor
      · intro h g hg
        have hb := h g hg
        have hne : SummariseVisits.notes_of g.2 ≠ [] := by
          intro hnil
          rw [show (SummariseVisits.notes_of g.2).isEmpty = true by
            rw [hnil]; rfl] at hb
          exact absurd hb (by decide)
        have := (not_iff_not.mpr (notes_of_eq_nil_iff g.2)).mp hne
        push_neg at this
        obtain ⟨r, hr, hrb⟩ := this
        exact ⟨r, hr, (hasNonEmptyNote_iff r).mp (by
          cases hx : hasNonEmptyNote r
          · exact absurd hx hrb
          · rfl)⟩
      · intro h g hg
        obtain ⟨r, hr, hrs⟩ := h g hg
        have hne : SummariseVisits.notes_of g.2 ≠ [] := by
          intro hnil
          have := (notes_of_eq_nil_iff g.2).mp hnil r hr
          rw [(hasNonEmptyNote_iff r).mpr hrs] at this
          exact absurd this (by decide)
        have : (SummariseVisits.notes_of g.2).isEmpty = false := by
          cases hx : (SummariseVisits.notes_of g.2).isEmpty
          · rfl
          · exact absurd (List.isEmpty_iff.mp hx) hne
        rw [this]
        rfl

/-- C3: in classification mode the collected list is exactly the in-order
image of the non-skipped records: the originating indices are strictly
increasing (submission order, independent of completion timing, since
`executor.map` returns results in submission order), each item's `id` is the
decimal string of its record's index, and that index points back at the
originating record. -/
theorem C3_order_preservation (bedrock : String → BedrockResult) (now : String)
    (records : List VisitRecord) (batch_id : String) :
    (ClassifyVisits.aggregate_records bedrock now records batch_id).1
        = (records.enum.filter (fun p => hasNonEmptyNote p.2)).map
            (fun p => ClassifyVisits.classified_item bedrock now batch_id p.1 p.2)
    ∧ ((records.enum.filter (fun p => hasNonEmptyNote p.2)).map Prod.fst).Sorted (· < ·)
    ∧ ∀ p ∈ records.enum.filter (fun p => hasNonEmptyNote p.2),
        (ClassifyVisits.classified_item bedrock now batch_id p.1 p.2).id = Nat.repr p.1
        ∧ records[p.1]? = some p.2 := by
  refine ⟨aggregate_records_fst bedrock now records batch_id, ?_, ?_⟩
  · have henum : records.enum.Pairwise (fun a b => a.1 < b.1) :=
      pairwise_fst_lt_enumFrom 0 records
    have hfilter : (records.enum.filter (fun p => hasNonEmptyNote p.2)).Pairwise
        (fun a b => a.1 < b.1) := henum.filter _
    exact List.pairwise_map.mpr hfilter
  · intro p hp
    have hmem : p ∈ records.enum := List.mem_of_mem_filter hp
    refine ⟨rfl, ?_⟩
    have : (p.1, p.2) ∈ records.enum := by
      have hpp : p = (p.1, p.2) := rfl
      rw [← hpp]
      exact hmem
    exact List.mk_mem_enum_iff_getElem?.mp this

/-- C9: within one batch the produced items have pairwise distinct composite
keys: the `id` fields are decimal strings of distinct indices and every item
carries the same batch id, so no bulk write can overwrite one item of the
batch with another. -/
theorem C9_distinct_composite_keys (bedrock : String → BedrockResult)
    (now : String) (records : List VisitRecord) (batch_id : String) :
    ((ClassifyVisits.aggregate_records bedrock now records batch_id).1).Pairwise
        (fun a b => ¬(a.id = b.id ∧ a.batch_id = b.batch_id))
    ∧ ∀ item ∈ (ClassifyVisits.aggregate_records bedrock now records batch_id).1,
        item.batch_id = batch_id := by
  constructor
  · rw [aggregate_records_fst bedrock now records batch_id]
    apply List.pairwise_map.mpr
    have henum : records.enum.Pairwise (fun a b => a.1 < b.1) :=
      pairwise_fst_lt_enumFrom 0 records
    have hfilter := henum.filter (fun p => hasNonEmptyNote p.2)
    apply hfilter.imp
    intro a b hlt hcol
    have hids : Nat.repr a.1 = Nat.repr b.1 := hcol.1
    have : a.1 = b.1 := natRepr_injective hids
    omega
  · intro item hitem
    rw [aggregate_records_fst bedrock now records batch_id] at hitem
    obtain ⟨p, _, rfl⟩ := List.mem_map.mp hitem
    rfl

theorem foldl_max_spec :
    ∀ (xs : List String) (a : String),
      (xs.foldl max a = a ∨ xs.foldl max a ∈ xs)
      ∧ a ≤ xs.foldl max a
      ∧ ∀ d ∈ xs, d ≤ xs.foldl max a := by
  intro xs
  induction xs with
  | nil =>
    intro a
    simp
  | cons x rest ih =>
    intro a
    obtain ⟨h1, h2, h3⟩ := ih (max a x)
    rw [List.foldl_cons]
    refine ⟨?_, ?_, ?_⟩
    · rcases h1 with h1 | h1
      · rcases max_choice a x with hm | hm
        · exact Or.inl (by rw [h1, hm])
        · exact Or.inr (by rw [h1, hm]; exact List.mem_cons_self x rest)
      · exact Or.inr (List.mem_cons_of_mem x h1)
    · exact le_trans (le_max_left a x) h2
    · intro d hd
      rcases List.mem_cons.mp hd with hd | hd
      · rw [hd]
        exact le_trans (le_max_right a x) h2
      · exact h3 d hd

theorem pyMax_mem {l : List String} (h : l ≠ []) :
    SummariseVisits.pyMax l ∈ l := by
  match l with
  | [] => exact absurd rfl h
  | x :: xs =>
    show xs.foldl max x ∈ x :: xs
    rcases (foldl_max_spec xs x).1 with h1 | h1
    · rw [h1]
      exact List.mem_cons_self x xs
    · exact List.mem_cons_of_mem x h1

theorem le_pyMax {l : List String} {d : String} (hd : d ∈ l) :
    d ≤ SummariseVisits.pyMax l := by
  match l with
  | [] => exact absurd hd (List.not_mem_nil d)
  | x :: xs =>
    show d ≤ xs.foldl max x
    rcases List.mem_cons.mp hd with h | h
    · rw [h]
      exact (foldl_max_spec xs x).2.1
    · exact (foldl_max_spec xs x).2.2 d h

theorem process_client_some_elim (bedrock : String → BedrockResult) (now : String)
    (idx : Nat) (client_name : String) (client_records : List VisitRecord)
    (batch_id : String) (item : SummariseVisits.SummaryItem)
    (h : SummariseVisits.process_client bedrock now
        (idx, client_name, client_records, batch_id) = some item) :
    item = SummariseVisits.client_item bedrock now batch_id client_name client_records
    ∧ SummariseVisits.notes_of client_records ≠ [] := by
  rw [process_client_eq] at h
  by_cases hk : (SummariseVisits.notes_of client_records).isEmpty = true
  · rw [if_pos hk] at h
    exact absurd h (by simp)
  · rw [if_neg hk] at h
    refine ⟨(Option.some.inj h).symm, ?_⟩
    intro hnil
    apply hk
    rw [hnil]
    rfl

theorem sorted_records_ne_nil {client_records : List VisitRecord}
    (h : SummariseVisits.notes_of client_records ≠ []) :
    SummariseVisits.sorted_records client_records ≠ [] := by
  intro h0
  apply h
  unfold SummariseVisits.notes_of
  rw [h0]
  rfl

theorem byVisitDate_jan :
    SummariseVisits.byVisitDate visitJan1 visitJan2Blank = true := by
  unfold SummariseVisits.byVisitDate
  apply decide_eq_true
  show ("2024-01-01" : String) ≤ "2024-01-02"
  rw [String.le_iff_toList_le]
  decide

theorem sorted_jan : SummariseVisits.sorted_records [visitJan1, visitJan2Blank]
    = [visitJan1, visitJan2Blank] := by
  unfold SummariseVisits.sorted_records
  apply List.mergeSort_of_sorted
  refine List.Pairwise.cons ?_ (List.pairwise_singleton _ _)
  intro y hy
  rw [List.mem_singleton.mp hy]
  exact byVisitDate_jan

theorem notes_of_jan : SummariseVisits.notes_of [visitJan1, visitJan2Blank]
    = [pyStrip "Client ate well."] := by
  unfold SummariseVisits.notes_of
  rw [sorted_jan]
  decide

/-- C6: the latest visit date of a summarised client is the lexicographic
maximum of the visit dates over the client's whole record set, including
records whose notes are blank; on a concrete batch it disagrees with the
visit date of the last element of the filtered, sorted list used for the
prompt, because the maximal-date record there has a blank note. -/
theorem C6_latest_visit_date (bedrock : String → BedrockResult) (now : String)
    (idx : Nat) (client_name : String) (client_records : List VisitRecord)
    (batch_id : String) (item : SummariseVisits.SummaryItem)
    (h : SummariseVisits.process_client bedrock now
        (idx, client_name, client_records, batch_id) = some item) :
    (item.latest_visit_date ∈ client_records.map (fun r => r.visit_date.getD "")
      ∧ ∀ d ∈ client_records.map (fun r => r.visit_date.getD ""),
          d ≤ item.latest_visit_date)
    ∧ (∃ it : SummariseVisits.SummaryItem,
        SummariseVisits.process_client (fun _ => .error) "t"
            (0, "A", [visitJan1, visitJan2Blank], "b") = some it
        ∧ it.latest_visit_date = "2024-01-02"
        ∧ (((SummariseVisits.sorted_records [visitJan1, visitJan2Blank]).filter
              hasNonEmptyNote).map (fun r => r.visit_date.getD "")).getLast?
            = some "2024-01-01"
        ∧ ("2024-01-02" : String) ≠ "2024-01-01") := by
  constructor
  · obtain ⟨hitem, hne⟩ := process_client_some_elim bedrock now idx client_name
      client_records batch_id item h
    have hlatest : item.latest_visit_date
        = SummariseVisits.pyMax ((SummariseVisits.sorted_records client_records).map
            (fun r => r.visit_date.getD "")) := by
      rw [hitem]
      rfl
    have hsne : SummariseVisits.sorted_records client_records ≠ [] :=
      sorted_records_ne_nil hne
    have hmne : (SummariseVisits.sorted_records client_records).map
        (fun r => r.visit_date.getD "") ≠ [] := by
      simpa using hsne
    have hperm : ((SummariseVisits.sorted_records client_records).map
          (fun r => r.visit_date.getD "")).Perm
        (client_records.map (fun r => r.visit_date.getD "")) := by
      unfold SummariseVisits.sorted_records
      exact (List.mergeSort_perm client_records SummariseVisits.byVisitDate).map _
    constructor
    · rw [hlatest]
      exact hperm.mem_iff.mp (pyMax_mem hmne)
    · intro d hd
      rw [hlatest]
      exact le_pyMax (hperm.mem_iff.mpr hd)
  · refine ⟨SummariseVisits.client_item (fun _ => .error) "t" "b" "A"
      [visitJan1, visitJan2Blank], ?_, ?_, ?_, by decide⟩
    · rw [process_client_eq, if_neg (by rw [notes_of_jan]; decide)]
    · show SummariseVisits.pyMax
        ((SummariseVisits.sorted_records [visitJan1, visitJan2Blank]).map
          (fun r => r.visit_date.getD "")) = "2024-01-02"
      rw [sorted_jan]
      show max "2024-01-01" "2024-01-02" = "2024-01-02"
      apply max_eq_right
      rw [String.le_iff_toList_le]
      decide
    · rw [sorted_jan]
      decide

/-- C6 witness: the theorem applied to the concrete two-record client. -/
theorem C6_latest_visit_date_witness :
    SummariseVisits.process_client (fun _ => .error) "t"
        (0, "A", [visitJan1, visitJan2Blank], "b")
      = some (SummariseVisits.client_item (fun _ => .error) "t" "b" "A"
          [visitJan1, visitJan2Blank])
    ∧ (SummariseVisits.client_item (fun _ => .error) "t" "b" "A"
        [visitJan1, visitJan2Blank]).latest_visit_date
      ∈ [visitJan1, visitJan2Blank].map (fun r => r.visit_date.getD "") := by
  have hpc : SummariseVisits.process_client (fun _ => .error) "t"
      (0, "A", [visitJan1, visitJan2Blank], "b")
      = some (SummariseVisits.client_item (fun _ => .error) "t" "b" "A"
          [visitJan1, visitJan2Blank]) := by
    rw [process_client_eq, if_neg (by rw [notes_of_jan]; decide)]
  refine ⟨hpc, ?_⟩
  exact ((C6_latest_visit_date (fun _ => .error) "t" 0 "A"
    [visitJan1, visitJan2Blank] "b" _ hpc).1).1

/-- C7: a summarised client's visit count is the total number of that
client's records in the batch, including records whose notes are blank after
trimming. -/
theorem C7_visit_count (bedrock : String → BedrockResult) (now : String)
    (idx : Nat) (client_name : String) (client_records : List VisitRecord)
    (batch_id : String) (item : SummariseVisits.SummaryItem)
    (h : SummariseVisits.process_client bedrock now
        (idx, client_name, client_records, batch_id) = some item) :
    item.visit_count = client_records.length := by
  obtain ⟨hitem, -⟩ := process_client_some_elim bedrock now idx client_name
    client_records batch_id item h
  rw [hitem]
  show (SummariseVisits.sorted_records client_records).length = client_records.length
  unfold SummariseVisits.sorted_records
  exact List.length_mergeSort client_records

/-- C7 witness: a client with two records, one of whose notes is blank, is
summarised with `visit_count = 2`. -/
theorem C7_visit_count_witness :
    SummariseVisits.process_client (fun _ => .error) "t"
        (0, "A", [visitJan1, visitJan2Blank], "b")
      = some (SummariseVisits.client_item (fun _ => .error) "t" "b" "A"
          [visitJan1, visitJan2Blank])
    ∧ (SummariseVisits.client_item (fun _ => .error) "t" "b" "A"
        [visitJan1, visitJan2Blank]).visit_count = 2 := by
  have hpc : SummariseVisits.process_client (fun _ => .error) "t"
      (0, "A", [visitJan1, visitJan2Blank], "b")
      = some (SummariseVisits.client_item (fun _ => .error) "t" "b" "A"
          [visitJan1, visitJan2Blank]) := by
    rw [process_client_eq, if_neg (by rw [notes_of_jan]; decide)]
  refine ⟨hpc, ?_⟩
  exact C7_visit_count (fun _ => .error) "t" 0 "A" [visitJan1, visitJan2Blank]
    "b" _ hpc

theorem foldl_append_map {α β : Type} (g : α → β) :
    ∀ (refs : List α) (acc : List β),
      refs.foldl (fun a r => a ++ [g r]) acc = acc ++ refs.map g := by
  intro refs
  induction refs with
  | nil =>
    intro acc
    simp
  | cons r rest ih =>
    intro acc
    rw [List.foldl_cons, ih, List.map_cons]
    simp

theorem classify_handler_outcomes (bedrock : String → BedrockResult)
    (now : String) (store : List ClassifyVisits.ClassifyItem → Bool)
    (s3 : S3Ref → FetchResult) (unquote : String → String) :
    ∀ (event : List ClassifyVisits.SnsRecord)
      (acc : List ClassifyVisits.ObjectOutcome),
      event.foldl
        (fun acc record =>
          match record with
          | .noSns => acc
          | .sns s3Records =>
            s3Records.foldl
              (fun acc2 ref => acc2 ++
                [ClassifyVisits.process_s3_object bedrock now store s3 unquote ref])
              acc)
        acc
      = acc ++ (event.flatMap
          (fun record => match record with
            | ClassifyVisits.SnsRecord.noSns => []
            | ClassifyVisits.SnsRecord.sns s3Records => s3Records)).map
          (ClassifyVisits.process_s3_object bedrock now store s3 unquote) := by
  intro event
  induction event with
  | nil =>
    intro acc
    simp
  | cons record rest ih =>
    intro acc
    rw [List.foldl_cons, List.flatMap_cons]
    cases record with
    | noSns =>
      rw [ih]
      simp
    | sns s3Records =>
      show List.foldl _
        (s3Records.foldl
          (fun acc2 ref => acc2 ++
            [ClassifyVisits.process_s3_object bedrock now store s3 unquote ref])
          acc) rest = _
      rw [foldl_append_map, ih]
      simp

/-- C8: both handlers catch per-object parse and fetch failures (each failed
object yields a skip outcome and every object still gets its own outcome,
computed independently of the others), and always return the fixed-shape 200
acknowledgment whose `processed_objects` equals the number of notifications
in the event, whatever the collaborators do. -/
theorem C8_handler_acknowledgment (bedrock : String → BedrockResult)
    (now : String) (store : List ClassifyVisits.ClassifyItem → Bool)
    (store2 : List SummariseVisits.SummaryItem → Bool) (s3 : S3Ref → FetchResult)
    (unquote : String → String) (event : List ClassifyVisits.SnsRecord)
    (event2 : List S3Ref) :
    ((ClassifyVisits.lambda_handler bedrock now store s3 unquote event).1
        = { statusCode := 200
            message := "Processing complete."
            processed_objects := event.length }
      ∧ (ClassifyVisits.lambda_handler bedrock now store s3 unquote event).2
          = (event.flatMap
              (fun record => match record with
                | ClassifyVisits.SnsRecord.noSns => []
                | ClassifyVisits.SnsRecord.sns s3Records => s3Records)).map
              (ClassifyVisits.process_s3_object bedrock now store s3 unquote)
      ∧ ∀ ref : S3Ref, s3 ⟨ref.bucket, unquote ref.key⟩ = .malformed →
          ClassifyVisits.process_s3_object bedrock now store s3 unquote ref
            = .parseFailed)
    ∧ ((SummariseVisits.lambda_handler bedrock now store2 s3 unquote event2).1
        = { statusCode := 200
            message := "Summarisation complete."
            processed_objects := event2.length }
      ∧ (SummariseVisits.lambda_handler bedrock now store2 s3 unquote event2).2
          = event2.map
              (SummariseVisits.process_s3_object bedrock now store2 s3 unquote)
      ∧ ∀ ref : S3Ref, s3 ⟨ref.bucket, unquote ref.key⟩ = .malformed →
          SummariseVisits.process_s3_object bedrock now store2 s3 unquote ref
            = .parseFailed) := by
  refine ⟨⟨rfl, ?_, ?_⟩, rfl, ?_, ?_⟩
  · show (event.foldl _ []) = _
    rw [classify_handler_outcomes bedrock now store s3 unquote event []]
    rfl
  · intro ref href
    unfold ClassifyVisits.process_s3_object
    simp only [href]
  · show (event2.foldl _ []) = _
    rw [foldl_append_map
      (SummariseVisits.process_s3_object bedrock now store2 s3 unquote) event2 []]
    rfl
  · intro ref href
    unfold SummariseVisits.process_s3_object
    simp only [href]

/-- C10 counterexample: a record whose client field is present (equal to the
literal string `"Unknown"`) is nevertheless assigned to the `"Unknown"`
client group, so `"Unknown"` membership does not imply the field was absent. -/
theorem C10_unknown_group_counterexample :
    recLiteralUnknownClient.client ≠ none
    ∧ SummariseVisits.group_by_client [recAbsentClient, recLiteralUnknownClient]
        = [("Unknown", [recAbsentClient, recLiteralUnknownClient])] := by
  constructor
  · decide
  · rfl

theorem sorted_recEmpty : SummariseVisits.sorted_records [recEmptyClient]
    = [recEmptyClient] := by
  unfold SummariseVisits.sorted_records
  exact List.mergeSort_singleton recEmptyClient

theorem notes_of_recEmpty : SummariseVisits.notes_of [recEmptyClient]
    = [pyStrip "Visited garden."] := by
  unfold SummariseVisits.notes_of
  rw [sorted_recEmpty]
  decide

/-- C10 (amended): a record is grouped under `"Unknown"` only when its client
field is absent or its value is itself the literal string `"Unknown"`; a
record whose client field is present but empty is grouped under the empty
string, a group distinct from `"Unknown"`, and such a group with a usable
note yields its own output item whose client id is the empty string. -/
theorem C10_empty_string_client :
    (∀ r : VisitRecord, r.client.getD "Unknown" = "Unknown" →
      r.client = none ∨ r.client = some "Unknown")
    ∧ (∀ r : VisitRecord, r.client = some "" → r.client.getD "Unknown" = "")
    ∧ ("" : String) ≠ "Unknown"
    ∧ SummariseVisits.group_by_client [recAbsentClient, recEmptyClient]
        = [("Unknown", [recAbsentClient]), ("", [recEmptyClient])]
    ∧ (SummariseVisits.summarise_clients (fun _ => .error) "t" [recEmptyClient] "b").map
          (fun item => item.client)
        = [""] := by
  refine ⟨?_, ?_, by decide, by rfl, ?_⟩
  · intro r hr
    cases hc : r.client with
    | none => exact Or.inl rfl
    | some c =>
      right
      rw [hc] at hr
      have hcu : c = "Unknown" := by simpa using hr
      rw [hcu]
  · intro r hr
    rw [hr]
    rfl
  · rw [summarise_clients_eq]
    have hgroup : SummariseVisits.group_by_client [recEmptyClient]
        = [("", [recEmptyClient])] := rfl
    rw [hgroup]
    rw [@List.filter_cons_of_pos _
      (fun g : String × List VisitRecord => !(SummariseVisits.notes_of g.2).isEmpty)
      ("", [recEmptyClient]) [] (by
        show (!(SummariseVisits.notes_of [recEmptyClient]).isEmpty) = true
        rw [notes_of_recEmpty]
        decide)]
    rfl
